import Mathlib

/-!
Verification of the article persistence and export pipeline of the
leadership-blog-editor application.

The definitions below are shallow embeddings of the JavaScript methods of
the editor application (the `LeadershipBlogEditor` class): `saveToStorage`,
`saveArticle`, `duplicateArticle`, `restoreFromBackup`, `generateMarkdown`,
`cleanHTMLForExport` and `calculateWordCount`.  Strings are Lean `String`s,
article objects are a Lean structure, and ISO-8601 timestamp strings are
modelled by natural numbers (for well-formed ISO-8601 strings of the same
format the JavaScript string comparison used by the conflict check and the
`Date`-based comparison used by the sort comparator both coincide with the
numeric order of the instants they denote).
-/

namespace BlogEditor

/-- One stored article record, with the exact field set produced by
`saveArticle` / `gatherArticleData` in the source.  `createdAt` and
`updatedAt` model the ISO-8601 timestamp strings by the instants they
denote. -/
structure Article where
  id : String
  title : String
  author : String
  category : String
  summary : String
  publicationDate : String
  content : String
  htmlContent : String
  wordCount : Nat
  createdAt : Nat
  updatedAt : Nat
deriving DecidableEq

/-- The `conflictResolution` setting of the editor (`'auto'` or `'ask'`). -/
inductive Policy where
  | auto
  | ask
deriving DecidableEq

/-- Descending order on `updatedAt`: `updDescRel a b` holds when `a` is at
least as recent as `b`.  This is the order realised by the comparator
`(a, b) => new Date(b.updatedAt) - new Date(a.updatedAt)` that
`saveToStorage` passes to `Array.prototype.sort`. -/
def updDescRel (a b : Article) : Prop := b.updatedAt ≤ a.updatedAt

instance : DecidableRel updDescRel := fun a b => Nat.decLe b.updatedAt a.updatedAt

instance : IsTotal Article updDescRel :=
  ⟨fun a b => (Nat.le_total b.updatedAt a.updatedAt).imp id id⟩

instance : IsTrans Article updDescRel :=
  ⟨fun _ _ _ hab hbc => Nat.le_trans hbc hab⟩

/-- The stable sort `articles.sort((a, b) => new Date(b.updatedAt) - new
Date(a.updatedAt))` performed by `saveToStorage` before writing back. -/
def sortByUpdatedDesc (l : List Article) : List Article :=
  List.insertionSort updDescRel l

/-- `articles.findIndex(a => a.id === article.id)` followed by
`articles[existingIndex] = article` when the index is non-negative, or
`articles.push(article)` when it is `-1`: replace the first record with the
incoming record's id, or append the record at the end. -/
def replaceFirstById (r : Article) : List Article → List Article
  | [] => [r]
  | a :: l => if a.id == r.id then r :: l else a :: replaceFirstById r l

/-- `saveToStorage(article)`.  `stored` is the parsed content of the
`localStorage` slot, `confirmAnswer` is the user's answer to the
`confirm(...)` dialog (consulted only on a conflict under the `ask`
policy).  Returns the boolean result of the method together with the new
content of the storage slot. -/
def saveToStorage (policy : Policy) (confirmAnswer : Bool)
    (stored : List Article) (article : Article) : Bool × List Article :=
  match stored.find? (fun a => a.id == article.id) with
  | some existing =>
    if existing.updatedAt > article.updatedAt ∧ policy = Policy.ask ∧ confirmAnswer = false then
      (false, stored)
    else
      (true, sortByUpdatedDesc (replaceFirstById article stored))
  | none => (true, sortByUpdatedDesc (replaceFirstById article stored))

/-- One call to `saveToStorage`: the article passed in together with the
session's conflict policy and the answer the user would give to the
confirmation dialog. -/
structure PutCall where
  article : Article
  policy : Policy
  confirmAnswer : Bool

/-- The storage content after one `saveToStorage` call. -/
def applyPut (stored : List Article) (e : PutCall) : List Article :=
  (saveToStorage e.policy e.confirmAnswer stored e.article).2

/-- The storage content after a finite sequence of `saveToStorage` calls. -/
def runPuts (stored : List Article) (events : List PutCall) : List Article :=
  events.foldl applyPut stored

/-- The character class `\s` of JavaScript regular expressions, which is
also the set of characters removed by `String.prototype.trim`: ASCII
whitespace, NBSP, BOM and the Unicode space separators and line
terminators. -/
def isJsSpace (c : Char) : Bool :=
  let n := c.toNat
  n = 0x9 || n = 0xa || n = 0xb || n = 0xc || n = 0xd || n = 0x20 || n = 0xa0 ||
  n = 0x1680 || (0x2000 ≤ n && n ≤ 0x200a) || n = 0x2028 || n = 0x2029 ||
  n = 0x202f || n = 0x205f || n = 0x3000 || n = 0xfeff

/-- `String.prototype.trim` on a character list: drop leading and trailing
JavaScript whitespace. -/
def jsTrimList (l : List Char) : List Char :=
  (((l.dropWhile isJsSpace).reverse.dropWhile isJsSpace).reverse)

/-- `String.prototype.trim`. -/
def jsTrim (s : String) : String := String.mk (jsTrimList s.toList)

/-- `text.split(/\\s+/)`: the regular expression literal `/\\s+/` denotes
an escaped backslash followed by `s+`, so a separator is a literal
backslash character followed by one or more letters `s` — not a run of
whitespace.  The accumulator `cur` holds the current segment reversed; the
fuel is one more than the length of the remaining input, and every step
consumes at least one character. -/
def splitBSGo : Nat → List Char → List Char → List (List Char)
  | 0, cur, _ => [cur.reverse]
  | _ + 1, cur, [] => [cur.reverse]
  | fuel + 1, cur, '\\' :: 's' :: rest =>
      cur.reverse :: splitBSGo fuel [] (rest.dropWhile (fun c => c == 's'))
  | fuel + 1, cur, c :: rest => splitBSGo fuel (c :: cur) rest

/-- `calculateWordCount(text)`:
`text.trim() ? text.trim().split(/\\s+/).length : 0`. -/
def calculateWordCount (text : String) : Nat :=
  if jsTrim text = "" then 0
  else (splitBSGo ((jsTrim text).toList.length + 1) [] (jsTrim text).toList).length

/-- Claim C1 (evaluation at the failing input): `calculateWordCount`
returns `0` on the empty and all-whitespace strings as the spec says, but
returns `1` — not `3` — on `"a b  c"`, because the regular expression
`/\\s+/` matches a literal backslash followed by letters `s` rather than a
run of whitespace; the last conjunct shows a backslash-`s` sequence is
what actually separates words. -/
theorem c1_wordcount_eval :
    calculateWordCount "" = 0 ∧ calculateWordCount "  " = 0
    ∧ calculateWordCount "a b  c" = 1
    ∧ calculateWordCount "a\\ssb" = 2 := by
  decide

/-- An article with the given id and `updatedAt` and empty remaining
fields; used to build concrete storage states. -/
def mkArt (i : String) (u : Nat) : Article :=
  { id := i, title := "", author := "", category := "", summary := "",
    publicationDate := "", content := "", htmlContent := "", wordCount := 0,
    createdAt := 0, updatedAt := u }

/-- A successful `saveToStorage` writes the sorted replace-or-append
result; this is the branch taken whenever the conflict guard does not
fire. -/
lemma saveToStorage_auto_snd (c : Bool) (stored : List Article) (r : Article) :
    (saveToStorage Policy.auto c stored r).2
      = sortByUpdatedDesc (replaceFirstById r stored) := by
  unfold saveToStorage
  cases h : stored.find? (fun a => a.id == r.id) with
  | none => rfl
  | some existing =>
    simp only [h]
    rw [if_neg]
    rintro ⟨-, hpol, -⟩
    exact Policy.noConfusion hpol

/-- Each `saveToStorage` call either leaves the storage slot untouched
(declined conflict) or writes a collection sorted by `updatedAt`
descending. -/
lemma applyPut_unchanged_or_sorted (stored : List Article) (e : PutCall) :
    applyPut stored e = stored ∨ List.Sorted updDescRel (applyPut stored e) := by
  unfold applyPut saveToStorage
  cases h : stored.find? (fun a => a.id == e.article.id) with
  | none => exact Or.inr (List.sorted_insertionSort updDescRel _)
  | some existing =>
    simp only [h]
    by_cases hc : existing.updatedAt > e.article.updatedAt ∧ e.policy = Policy.ask ∧
        e.confirmAnswer = false
    · rw [if_pos hc]; exact Or.inl rfl
    · rw [if_neg hc]; exact Or.inr (List.sorted_insertionSort updDescRel _)

/-- After any sequence of `saveToStorage` calls the storage slot is either
exactly the initial collection (no call mutated it) or sorted by
`updatedAt` descending. -/
lemma runPuts_sorted_or_unchanged :
    ∀ (events : List PutCall) (stored : List Article),
      List.Sorted updDescRel (runPuts stored events) ∨ runPuts stored events = stored
  | [], _ => Or.inr rfl
  | e :: es, stored => by
    have hstep : runPuts stored (e :: es) = runPuts (applyPut stored e) es := rfl
    rw [hstep]
    rcases runPuts_sorted_or_unchanged es (applyPut stored e) with hs | he
    · exact Or.inl hs
    · rw [he]
      rcases applyPut_unchanged_or_sorted stored e with hu | hs
      · exact Or.inr hu
      · exact Or.inl hs

/-- Replacing the first record carrying `r.id` (or appending `r`) in a
collection that holds at most one record with that id leaves exactly the
record `r` with that id. -/
lemma filter_replaceFirstById (r : Article) :
    ∀ (l : List Article),
      (l.filter (fun a => a.id == r.id)).length ≤ 1 →
      (replaceFirstById r l).filter (fun a => a.id == r.id) = [r]
  | [], _ => by simp [replaceFirstById]
  | a :: l, h => by
    by_cases ha : a.id == r.id
    · have h' : (l.filter (fun a => a.id == r.id)).length + 1 ≤ 1 := by
        simpa only [List.filter_cons, ha, if_true, List.length_cons] using h
      have hnil : l.filter (fun a => a.id == r.id) = [] :=
        List.length_eq_zero.mp (by omega)
      simp [replaceFirstById, ha, hnil]
    · have hfl : (l.filter (fun a => a.id == r.id)).length ≤ 1 := by
        simpa [List.filter_cons, ha] using h
      simpa [replaceFirstById, ha, List.filter_cons]
        using filter_replaceFirstById r l hfl

/-- Sorting permutes the collection, so it preserves the sub-collection of
records carrying a fixed id. -/
lemma filter_sortByUpdatedDesc_singleton (r : Article) (l : List Article)
    (h : l.filter (fun a => a.id == r.id) = [r]) :
    (sortByUpdatedDesc l).filter (fun a => a.id == r.id) = [r] := by
  have hperm : List.Perm ((sortByUpdatedDesc l).filter (fun a => a.id == r.id))
      (l.filter (fun a => a.id == r.id)) :=
    (List.perm_insertionSort updDescRel l).filter _
  rw [h] at hperm
  exact List.perm_singleton.mp hperm

/-- A successful put on a collection with at most one record of the
incoming id leaves exactly the incoming record with that id. -/
lemma filter_after_auto_put (r : Article) (c : Bool) (stored : List Article)
    (h : (stored.filter (fun a => a.id == r.id)).length ≤ 1) :
    ((saveToStorage Policy.auto c stored r).2).filter (fun a => a.id == r.id) = [r] := by
  rw [saveToStorage_auto_snd]
  exact filter_sortByUpdatedDesc_singleton r _ (filter_replaceFirstById r stored h)

/-- Claim C4 (counterexample to the claim as stated): a declined `ask`
conflict leaves an unsorted initial collection unsorted, and starting from
a collection holding two records with id `"i"`, two `auto` saves of id
`"i"` leave two records with that id rather than exactly one. -/
theorem c4_counterexample :
    (decide (List.Sorted updDescRel
        (runPuts [mkArt "a" 1, mkArt "b" 2] [⟨mkArt "a" 0, Policy.ask, false⟩])) = false)
    ∧ ((applyPut (applyPut [mkArt "i" 5, mkArt "i" 3] ⟨mkArt "i" 10, Policy.auto, true⟩)
        ⟨mkArt "i" 11, Policy.auto, true⟩).filter (fun a => a.id == "i")).length = 2 := by
  constructor
  · decide
  · decide

/-- Claim C4 (amended): after any finite sequence of `saveToStorage` calls
the stored collection is sorted by `updatedAt` descending unless no call
mutated storage, in which case it is exactly the initial collection; and
two saves of the same id under the `auto` policy, starting from a
collection holding at most one record with that id, leave exactly one
record with that id — the later save's record. -/
theorem c4_sorted_and_single_id (init : List Article) (events : List PutCall)
    (r1 r2 : Article) (c1 c2 : Bool) :
    (List.Sorted updDescRel (runPuts init events) ∨ runPuts init events = init)
    ∧ (r1.id = r2.id →
        (init.filter (fun a => a.id == r2.id)).length ≤ 1 →
        (applyPut (applyPut init ⟨r1, Policy.auto, c1⟩) ⟨r2, Policy.auto, c2⟩).filter
          (fun a => a.id == r2.id) = [r2]) := by
  refine ⟨runPuts_sorted_or_unchanged events init, fun hid hcount => ?_⟩
  rw [← hid] at hcount ⊢
  have h1 : (applyPut init ⟨r1, Policy.auto, c1⟩).filter (fun a => a.id == r1.id) = [r1] :=
    filter_after_auto_put r1 c1 init hcount
  have hcount1 :
      ((applyPut init ⟨r1, Policy.auto, c1⟩).filter (fun a => a.id == r2.id)).length ≤ 1 := by
    rw [← hid, h1]; exact Nat.le_refl 1
  have h2 := filter_after_auto_put r2 c2 (applyPut init ⟨r1, Policy.auto, c1⟩) hcount1
  rw [hid]
  exact h2

/-- Witness for C4 (amended) at a concrete initial collection, put
sequence and pair of same-id `auto` saves. -/
theorem c4_witness :
    (List.Sorted updDescRel (runPuts [mkArt "w" 4] [⟨mkArt "w" 9, Policy.auto, true⟩])
      ∨ runPuts [mkArt "w" 4] [⟨mkArt "w" 9, Policy.auto, true⟩] = [mkArt "w" 4])
    ∧ (applyPut (applyPut [mkArt "w" 4] ⟨mkArt "w" 6, Policy.auto, true⟩)
        ⟨mkArt "w" 7, Policy.auto, true⟩).filter (fun a => a.id == (mkArt "w" 7).id)
        = [mkArt "w" 7] :=
  ⟨(c4_sorted_and_single_id [mkArt "w" 4] [⟨mkArt "w" 9, Policy.auto, true⟩]
      (mkArt "w" 6) (mkArt "w" 7) true true).1,
   (c4_sorted_and_single_id [mkArt "w" 4] [⟨mkArt "w" 9, Policy.auto, true⟩]
      (mkArt "w" 6) (mkArt "w" 7) true true).2 rfl (by decide)⟩

/-- Claim C3: under the `ask` policy, when the stored record found for the
incoming id is strictly newer than the incoming record and the confirmation
dialog is declined, `saveToStorage` returns `false` and the stored
collection is unchanged. -/
theorem c3_conflict_decline (stored : List Article) (incoming existing : Article)
    (hfind : stored.find? (fun a => a.id == incoming.id) = some existing)
    (holder : incoming.updatedAt < existing.updatedAt) :
    saveToStorage Policy.ask false stored incoming = (false, stored) := by
  unfold saveToStorage
  rw [hfind]
  exact if_pos ⟨holder, rfl, rfl⟩

/-- Witness for C3 at a concrete storage state and incoming record. -/
theorem c3_witness :
    saveToStorage Policy.ask false [mkArt "a" 5] (mkArt "a" 3)
      = (false, [mkArt "a" 5]) :=
  c3_conflict_decline [mkArt "a" 5] (mkArt "a" 3) (mkArt "a" 5) (by decide) (by decide)

/-! ### The editor surface: `saveArticle`, `duplicateArticle` -/

/-- The editor state consulted by `saveArticle`: the form field values read
by `gatherArticleData`, the `currentArticle` pointer, the `isModified`
flag, and the stored collection (the `localStorage` slot, of which
`this.articles` is a mirror refreshed by `loadArticles`). -/
structure EditorState where
  title : String
  author : String
  category : String
  summary : String
  publicationDate : String
  content : String
  htmlContent : String
  currentArticle : Option Article
  isModified : Bool
  stored : List Article
deriving DecidableEq

/-- `saveArticle()`.  Validation first: an empty trimmed title or empty
trimmed content only shows a notification and returns.  Otherwise the
article object is built (`id` and `createdAt` reuse the current article's
values via `||`, falling back to a fresh id / the current time when absent
or falsy; the JavaScript timestamp string is falsy only when empty, which
the numeric model renders as `0`) and passed to `saveToStorage`; on
success `currentArticle` and `isModified` are updated. -/
def saveArticle (st : EditorState) (policy : Policy) (confirmAnswer : Bool)
    (now : Nat) (newId : String) : EditorState :=
  if jsTrim st.title = "" then st
  else if jsTrim st.content = "" then st
  else
    let article : Article :=
      { id := match st.currentArticle with
              | some c => if c.id = "" then newId else c.id
              | none => newId
        title := st.title
        author := st.author
        category := st.category
        summary := st.summary
        publicationDate := st.publicationDate
        content := st.content
        htmlContent := st.htmlContent
        wordCount := calculateWordCount st.content
        createdAt := match st.currentArticle with
              | some c => if c.createdAt = 0 then now else c.createdAt
              | none => now
        updatedAt := now }
    let result := saveToStorage policy confirmAnswer st.stored article
    if result.1 then
      { st with stored := result.2, currentArticle := some article, isModified := false }
    else st

/-- Claim C5: when the trimmed title or the trimmed content is empty,
`saveArticle` changes nothing — the whole editor state, including the
stored collection, the `currentArticle` pointer and the `isModified` flag,
is returned unchanged; and whenever `saveArticle` changes the stored
collection, both the trimmed title and the trimmed content were
non-empty. -/
theorem c5_save_validation (st : EditorState) (policy : Policy) (confirmAnswer : Bool)
    (now : Nat) (newId : String) :
    ((jsTrim st.title = "" ∨ jsTrim st.content = "") →
      saveArticle st policy confirmAnswer now newId = st)
    ∧ ((saveArticle st policy confirmAnswer now newId).stored ≠ st.stored →
      jsTrim st.title ≠ "" ∧ jsTrim st.content ≠ "") := by
  constructor
  · rintro (h | h)
    · unfold saveArticle
      rw [if_pos h]
    · unfold saveArticle
      by_cases ht : jsTrim st.title = ""
      · rw [if_pos ht]
      · rw [if_neg ht, if_pos h]
  · intro hch
    by_cases ht : jsTrim st.title = ""
    · exfalso
      apply hch
      unfold saveArticle
      rw [if_pos ht]
    · by_cases hc : jsTrim st.content = ""
      · exfalso
        apply hch
        unfold saveArticle
        rw [if_neg ht, if_pos hc]
      · exact ⟨ht, hc⟩

/-- Witness for C5: a state with a whitespace-only title is left entirely
unchanged by `saveArticle`. -/
theorem c5_witness :
    saveArticle
      { title := "   ", author := "", category := "", summary := "",
        publicationDate := "", content := "body", htmlContent := "<p>body</p>",
        currentArticle := none, isModified := true, stored := [] }
      Policy.auto true 5 "fresh" =
      { title := "   ", author := "", category := "", summary := "",
        publicationDate := "", content := "body", htmlContent := "<p>body</p>",
        currentArticle := none, isModified := true, stored := [] } :=
  (c5_save_validation _ Policy.auto true 5 "fresh").1 (Or.inl (by decide))

/-- `duplicateArticle`'s construction of the duplicate record: the object
spread copies every field, then `id`, `title`, `createdAt` and `updatedAt`
are overridden (`generateArticleId()` is modelled by the `newId`
parameter, the two `new Date().toISOString()` calls by `now`). -/
def duplicateRecord (article : Article) (newId : String) (now : Nat) : Article :=
  { article with
    id := newId
    title := "Copy of " ++ article.title
    createdAt := now
    updatedAt := now }

/-- Claim C7: the duplicate of a record has title `"Copy of "` followed by
the original title, a different id (given that the freshly generated id
differs from the original's), `createdAt` and `updatedAt` both equal to
the duplication time, and every other field equal to the original's. -/
theorem c7_duplicate_fields (r : Article) (newId : String) (now : Nat)
    (hfresh : newId ≠ r.id) :
    (duplicateRecord r newId now).title = "Copy of " ++ r.title
    ∧ (duplicateRecord r newId now).id ≠ r.id
    ∧ (duplicateRecord r newId now).createdAt = now
    ∧ (duplicateRecord r newId now).updatedAt = now
    ∧ (duplicateRecord r newId now).author = r.author
    ∧ (duplicateRecord r newId now).category = r.category
    ∧ (duplicateRecord r newId now).summary = r.summary
    ∧ (duplicateRecord r newId now).publicationDate = r.publicationDate
    ∧ (duplicateRecord r newId now).content = r.content
    ∧ (duplicateRecord r newId now).htmlContent = r.htmlContent
    ∧ (duplicateRecord r newId now).wordCount = r.wordCount :=
  ⟨rfl, hfresh, rfl, rfl, rfl, rfl, rfl, rfl, rfl, rfl, rfl⟩

/-- Witness for C7 at a concrete record and fresh id. -/
theorem c7_witness :
    (duplicateRecord { mkArt "A" 3 with title := "X" } "B" 9).title
        = "Copy of " ++ ({ mkArt "A" 3 with title := "X" } : Article).title
    ∧ (duplicateRecord { mkArt "A" 3 with title := "X" } "B" 9).id
        ≠ ({ mkArt "A" 3 with title := "X" } : Article).id
    ∧ (duplicateRecord { mkArt "A" 3 with title := "X" } "B" 9).createdAt = 9
    ∧ (duplicateRecord { mkArt "A" 3 with title := "X" } "B" 9).updatedAt = 9
    ∧ (duplicateRecord { mkArt "A" 3 with title := "X" } "B" 9).author
        = ({ mkArt "A" 3 with title := "X" } : Article).author
    ∧ (duplicateRecord { mkArt "A" 3 with title := "X" } "B" 9).category
        = ({ mkArt "A" 3 with title := "X" } : Article).category
    ∧ (duplicateRecord { mkArt "A" 3 with title := "X" } "B" 9).summary
        = ({ mkArt "A" 3 with title := "X" } : Article).summary
    ∧ (duplicateRecord { mkArt "A" 3 with title := "X" } "B" 9).publicationDate
        = ({ mkArt "A" 3 with title := "X" } : Article).publicationDate
    ∧ (duplicateRecord { mkArt "A" 3 with title := "X" } "B" 9).content
        = ({ mkArt "A" 3 with title := "X" } : Article).content
    ∧ (duplicateRecord { mkArt "A" 3 with title := "X" } "B" 9).htmlContent
        = ({ mkArt "A" 3 with title := "X" } : Article).htmlContent
    ∧ (duplicateRecord { mkArt "A" 3 with title := "X" } "B" 9).wordCount
        = ({ mkArt "A" 3 with title := "X" } : Article).wordCount :=
  c7_duplicate_fields { mkArt "A" 3 with title := "X" } "B" 9 (by decide)

/-! ### Backup and restore -/

/-- The JSON value found in the `articles` field of a parsed backup
payload (or `undefined` when the field is missing). -/
inductive JsVal where
  | arr (l : List Article)
  | str (s : String)
  | num (n : Int)
  | boolean (b : Bool)
  | null
  | undefined
deriving DecidableEq

/-- JavaScript truthiness of a value, as tested by `!backup.articles`. -/
def jsTruthy : JsVal → Bool
  | JsVal.arr _ => true
  | JsVal.str s => s ≠ ""
  | JsVal.num n => n ≠ 0
  | JsVal.boolean b => b
  | JsVal.null => false
  | JsVal.undefined => false

/-- `Array.isArray`. -/
def jsIsArray : JsVal → Bool
  | JsVal.arr _ => true
  | _ => false

/-- A parsed backup payload: the shape `{articles, exportDate, version}`
written by `backupAllArticles`. -/
structure Backup where
  articles : JsVal
  exportDate : String
  version : String

/-- The result reported by `restoreFromBackup`'s `reader.onload`
handler. -/
inductive RestoreResult where
  | ok
  | cancelled
  | formatError
deriving DecidableEq

/-- `restoreFromBackup`'s handling of a parsed payload: if
`!backup.articles || !Array.isArray(backup.articles)` the handler throws
`'Invalid backup format'` before touching storage; otherwise it asks for
confirmation (declining returns without mutation) and then writes
`JSON.stringify(backup.articles)` — the array exactly as given — to the
storage slot. -/
def restoreFromBackup (payload : Backup) (confirmAnswer : Bool)
    (stored : List Article) : RestoreResult × List Article :=
  if jsTruthy payload.articles = false ∨ jsIsArray payload.articles = false then
    (RestoreResult.formatError, stored)
  else
    match payload.articles with
    | JsVal.arr l =>
      if confirmAnswer then (RestoreResult.ok, l) else (RestoreResult.cancelled, stored)
    | _ => (RestoreResult.formatError, stored)

/-- Claim C6: a restore payload whose `articles` field is missing or not
an array is rejected with a format error and the stored collection is
untouched, whatever the confirmation answer; a payload of the backup shape
whose `articles` field is an array is accepted, and (once confirmed) its
array is installed. -/
theorem c6_restore_validation (stored : List Article) (payload : Backup)
    (confirmAnswer : Bool) :
    (jsIsArray payload.articles = false →
      restoreFromBackup payload confirmAnswer stored = (RestoreResult.formatError, stored))
    ∧ (∀ l, payload.articles = JsVal.arr l →
      restoreFromBackup payload true stored = (RestoreResult.ok, l)) := by
  constructor
  · intro h
    unfold restoreFromBackup
    rw [if_pos (Or.inr h)]
  · intro l hl
    unfold restoreFromBackup
    rw [hl]
    rfl

/-- Witness for C6: the payload `{articles: "not-an-array"}` is rejected
and leaves a concrete collection unchanged, while an array payload of the
backup shape is accepted. -/
theorem c6_witness :
    restoreFromBackup ⟨JsVal.str "not-an-array", "2024-01-01", "1.0"⟩ true [mkArt "a" 5]
        = (RestoreResult.formatError, [mkArt "a" 5])
    ∧ restoreFromBackup ⟨JsVal.arr [mkArt "b" 7], "2024-01-01", "1.0"⟩ true [mkArt "a" 5]
        = (RestoreResult.ok, [mkArt "b" 7]) :=
  ⟨(c6_restore_validation [mkArt "a" 5] ⟨JsVal.str "not-an-array", "2024-01-01", "1.0"⟩
      true).1 rfl,
   (c6_restore_validation [mkArt "a" 5] ⟨JsVal.arr [mkArt "b" 7], "2024-01-01", "1.0"⟩
      true).2 [mkArt "b" 7] rfl⟩

/-- Claim C10: an accepted and confirmed restore installs the backup's
array exactly as given, preserving order and contents; in particular
restoring the unsorted collection `[updatedAt 1, updatedAt 2]` leaves the
storage slot unsorted, while any subsequent `auto` put re-sorts it. -/
theorem c10_restore_exact (stored : List Article) (l : List Article) :
    ((restoreFromBackup ⟨JsVal.arr l, "", ""⟩ true stored).2 = l)
    ∧ (decide (List.Sorted updDescRel
        ((restoreFromBackup ⟨JsVal.arr [mkArt "x" 1, mkArt "y" 2], "", ""⟩ true stored).2))
        = false)
    ∧ (∀ (r : Article) (c : Bool), List.Sorted updDescRel
        ((saveToStorage Policy.auto c
          (restoreFromBackup ⟨JsVal.arr [mkArt "x" 1, mkArt "y" 2], "", ""⟩ true stored).2
          r).2)) := by
  have hred : (restoreFromBackup ⟨JsVal.arr [mkArt "x" 1, mkArt "y" 2], "", ""⟩ true
      stored).2 = [mkArt "x" 1, mkArt "y" 2] := rfl
  refine ⟨rfl, ?_, fun r c => ?_⟩
  · rw [hred]
    decide
  · rw [saveToStorage_auto_snd]
    exact List.sorted_insertionSort updDescRel _

/-! ### Markdown export: `generateMarkdown`

The HTML-to-Markdown body conversion is a fixed sequence of
`String.prototype.replace` calls with global, case-insensitive regular
expressions such as `/<h1[^>]*>(.*?)<\/h1>/gi`.  Each is modelled by a
left-to-right scanner: at every position the whole pattern is tried; on a
match the replacement is emitted and scanning resumes after the match, on
a failure one character is emitted and scanning advances by one.  The lazy
group `(.*?)` takes the shortest capture, and `.` does not match line
terminators.  Scanners carry a fuel argument, always called with one more
than the length of the remaining input; every step consumes at least one
input character, so the fuel never runs out. -/

/-- Case-insensitive character comparison, as under the regex `i` flag. -/
def lowerEq (a b : Char) : Bool := a.toLower == b.toLower

/-- Consume the pattern `p` case-insensitively from the front of `l`,
returning the remainder. -/
def stripCI : List Char → List Char → Option (List Char)
  | [], l => some l
  | _ :: _, [] => none
  | p :: ps, c :: cs => if lowerEq p c then stripCI ps cs else none

/-- Match `<TAG[^>]*>` (case-insensitive) at the front of `l`, returning
the remainder after the closing `>`. -/
def matchOpenTag (tag : List Char) (l : List Char) : Option (List Char) :=
  match l with
  | '<' :: rest =>
    match stripCI tag rest with
    | some r2 =>
      match r2.dropWhile (fun c => c != '>') with
      | '>' :: r3 => some r3
      | _ => none
    | none => none
  | _ => none

/-- Match `</TAG>` (case-insensitive) at the front of `l`. -/
def matchCloseTag (tag : List Char) (l : List Char) : Option (List Char) :=
  match l with
  | '<' :: '/' :: rest =>
    match stripCI tag rest with
    | some ('>' :: r) => some r
    | _ => none
  | _ => none

/-- The line terminators that the regex `.` does not match. -/
def isLineTerm (c : Char) : Bool :=
  c == '\n' || c == '\r' || c.toNat = 0x2028 || c.toNat = 0x2029

/-- Scan for the closing tag reachable by the lazy group `(.*?)`: the
capture is the shortest line-terminator-free span after which `</TAG>`
matches.  Returns the capture and the remainder after the closing tag. -/
def findCloseTag (tag : List Char) : Nat → List Char → Option (List Char × List Char)
  | 0, _ => none
  | _ + 1, [] => none
  | fuel + 1, c :: rest =>
    match matchCloseTag tag (c :: rest) with
    | some r => some ([], r)
    | none =>
      if isLineTerm c then none
      else
        match findCloseTag tag fuel rest with
        | some (cap, r) => some (c :: cap, r)
        | none => none

/-- One global replace of `/<TAG[^>]*>(.*?)<\/TAG>/gi` by
`pre ++ capture ++ post`. -/
def replacePairCI (tag pre post : List Char) : Nat → List Char → List Char
  | 0, l => l
  | _ + 1, [] => []
  | fuel + 1, c :: rest =>
    match matchOpenTag tag (c :: rest) with
    | some afterOpen =>
      match findCloseTag tag (afterOpen.length + 1) afterOpen with
      | some (cap, afterClose) =>
          pre ++ cap ++ post ++ replacePairCI tag pre post fuel afterClose
      | none => c :: replacePairCI tag pre post fuel rest
    | none => c :: replacePairCI tag pre post fuel rest

/-- One global replace of `/<TAG[^>]*>/gi` (no capture) by `repl`. -/
def replaceOpenCI (tag repl : List Char) : Nat → List Char → List Char
  | 0, l => l
  | _ + 1, [] => []
  | fuel + 1, c :: rest =>
    match matchOpenTag tag (c :: rest) with
    | some after => repl ++ replaceOpenCI tag repl fuel after
    | none => c :: replaceOpenCI tag repl fuel rest

/-- The final catch-all `/(<[^>]*>)/g` removal of remaining markup. -/
def stripAllTags : Nat → List Char → List Char
  | 0, l => l
  | _ + 1, [] => []
  | fuel + 1, '<' :: rest =>
    (match rest.dropWhile (fun c => c != '>') with
     | '>' :: r => stripAllTags fuel r
     | _ => '<' :: stripAllTags fuel rest)
  | fuel + 1, c :: rest => c :: stripAllTags fuel rest

/-- The body conversion of `generateMarkdown`: the fixed ordered sequence
of substitutions `h1`/`h2`/`h3` → `#`/`##`/`###`, `strong` → `**`,
`em` → `*`, `p` → blank-line-terminated block, `br` → newline, then strip
all remaining tags. -/
def htmlToMarkdown (s : String) : String :=
  let l0 := s.toList
  let l1 := replacePairCI "h1".toList "# ".toList "\n".toList (l0.length + 1) l0
  let l2 := replacePairCI "h2".toList "## ".toList "\n".toList (l1.length + 1) l1
  let l3 := replacePairCI "h3".toList "### ".toList "\n".toList (l2.length + 1) l2
  let l4 := replacePairCI "strong".toList "**".toList "**".toList (l3.length + 1) l3
  let l5 := replacePairCI "em".toList "*".toList "*".toList (l4.length + 1) l4
  let l6 := replacePairCI "p".toList "".toList "\n\n".toList (l5.length + 1) l5
  let l7 := replaceOpenCI "br".toList "\n".toList (l6.length + 1) l6
  let l8 := stripAllTags (l7.length + 1) l7
  String.mk l8

/-- The conditionally included metadata lines of `generateMarkdown`
(author, date, category, summary), each guarded by the truthiness — i.e.
non-emptiness — of its field. -/
def mdFields (a : Article) : String :=
  (if a.author ≠ "" then "**Author:** " ++ a.author ++ "\n" else "")
  ++ (if a.publicationDate ≠ "" then "**Date:** " ++ a.publicationDate ++ "\n" else "")
  ++ (if a.category ≠ "" then "**Category:** " ++ a.category ++ "\n" else "")
  ++ (if a.summary ≠ "" then "\n**Summary:** " ++ a.summary ++ "\n" else "")

/-- The part of the Markdown output built before the `---` separator:
`` let markdown = `# ${articleData.title}\n\n` `` followed by the
conditional metadata lines. -/
def mdHeader (a : Article) : String :=
  "# " ++ a.title ++ "\n\n" ++ mdFields a

/-- The body: the converted `htmlContent` when truthy, else the plain
`content`. -/
def mdBody (a : Article) : String :=
  if a.htmlContent ≠ "" then htmlToMarkdown a.htmlContent else a.content

/-- `generateMarkdown(articleData)`: header, `\n---\n\n` separator,
body. -/
def generateMarkdown (a : Article) : String :=
  mdHeader a ++ "\n---\n\n" ++ mdBody a

/-! ### Lines of the Markdown output -/

/-- `(s ++ t).toList` unfolds to the concatenation of the lists. -/
lemma toList_append (s t : String) : (s ++ t).toList = s.toList ++ t.toList := rfl

/-- `s` has no newline character. -/
def noNewline (s : String) : Bool := s.toList.all (fun c => c != '\n')

/-- Splitting a character list at every newline (the line structure used
to speak about "lines" of the generated Markdown). -/
def splitLines : List Char → List (List Char)
  | [] => [[]]
  | c :: rest =>
    if c = '\n' then [] :: splitLines rest
    else
      match splitLines rest with
      | [] => [[c]]
      | seg :: segs => (c :: seg) :: segs

/-- The lines of a string. -/
def linesOf (s : String) : List String := (splitLines s.toList).map String.mk

/-- The first line of the generated document, with the `# ` heading marker
stripped: the re-extraction of the title from the Markdown export. -/
def extractTitle (md : String) : String :=
  String.mk ((md.toList.takeWhile (fun c => c != '\n')).drop 2)

/-- `takeWhile` up to the first newline recovers a newline-free prefix. -/
lemma takeWhile_append_newline :
    ∀ (l r : List Char), (∀ c ∈ l, c ≠ '\n') →
      ((l ++ '\n' :: r).takeWhile (fun c => c != '\n')) = l
  | [], r, _ => by simp
  | a :: l, r, h => by
    have ha : (a != '\n') = true := by
      simpa using h a (List.mem_cons_self a l)
    have hl : ∀ c ∈ l, c ≠ '\n' := fun c hc => h c (List.mem_cons_of_mem a hc)
    simp only [List.cons_append, List.takeWhile_cons, ha, if_true]
    rw [takeWhile_append_newline l r hl]

/-- Splitting at newlines peels off a newline-free prefix terminated by a
newline as one line. -/
lemma splitLines_append :
    ∀ (l r : List Char), (∀ c ∈ l, c ≠ '\n') →
      splitLines (l ++ '\n' :: r) = l :: splitLines r
  | [], r, _ => by simp [splitLines]
  | a :: l, r, h => by
    have ha' : ¬ a = '\n' := h a (List.mem_cons_self a l)
    have hl : ∀ c ∈ l, c ≠ '\n' := fun c hc => h c (List.mem_cons_of_mem a hc)
    rw [List.cons_append]
    rw [splitLines, if_neg ha', splitLines_append l r hl]

/-- The character list of the generated Markdown, reassociated to expose
the title line. -/
lemma generateMarkdown_toList (a : Article) :
    (generateMarkdown a).toList =
      "# ".toList ++ (a.title.toList ++ ('\n' :: '\n' ::
        ((mdFields a).toList ++ ("\n---\n\n".toList ++ (mdBody a).toList)))) := by
  simp only [generateMarkdown, mdHeader, toList_append, List.append_assoc]
  rfl

/-- Claim C9 (counterexample to the claim as stated): for a title that
contains a newline the first line of the export holds only the part of the
title before the newline, so the round-trip does not reproduce the
title. -/
theorem c9_counterexample :
    (extractTitle (generateMarkdown
        { mkArt "A" 0 with title := "a\nb", content := "x" })
      == ({ mkArt "A" 0 with title := "a\nb", content := "x" } : Article).title) = false := by
  decide

/-- Claim C9 (amended): for every article whose title contains no newline
character, extracting the first line of the `generateMarkdown` output and
stripping the `# ` marker reproduces the title exactly. -/
theorem c9_title_roundtrip (a : Article) (h : noNewline a.title = true) :
    extractTitle (generateMarkdown a) = a.title := by
  have hall : ∀ c ∈ ('#' :: ' ' :: a.title.toList), c ≠ '\n' := by
    simp only [noNewline, List.all_eq_true, bne_iff_ne] at h
    intro c hc
    rcases List.mem_cons.mp hc with rfl | hc
    · decide
    rcases List.mem_cons.mp hc with rfl | hc
    · decide
    · exact h c hc
  unfold extractTitle
  rw [generateMarkdown_toList]
  rw [show ("# ".toList ++ (a.title.toList ++ ('\n' :: '\n' ::
        ((mdFields a).toList ++ ("\n---\n\n".toList ++ (mdBody a).toList)))))
      = ('#' :: ' ' :: a.title.toList) ++ '\n' :: ('\n' ::
        ((mdFields a).toList ++ ("\n---\n\n".toList ++ (mdBody a).toList))) from by simp]
  rw [takeWhile_append_newline _ _ hall]
  rfl

/-- Witness for C9 at a concrete article. -/
theorem c9_witness :
    extractTitle (generateMarkdown { mkArt "A" 0 with title := "Safety Drill" })
      = ({ mkArt "A" 0 with title := "Safety Drill" } : Article).title :=
  c9_title_roundtrip { mkArt "A" 0 with title := "Safety Drill" } (by decide)

/-! ### The metadata header lines (claim C2) -/

/-- Rebuilding a string from its characters is the identity. -/
lemma mk_toList (s : String) : String.mk s.toList = s := rfl

/-- Two appends whose left parts differ within their common prefix are
different strings. -/
lemma append_ne_of_take (p q : String) (k : Nat)
    (hk1 : k ≤ p.toList.length) (hk2 : k ≤ q.toList.length)
    (hne : p.toList.take k ≠ q.toList.take k) (x y : String) :
    p ++ x ≠ q ++ y := by
  intro h
  have h2 : p.toList ++ x.toList = q.toList ++ y.toList := by
    have := congrArg String.toList h
    rwa [toList_append, toList_append] at this
  have h3 := congrArg (List.take k) h2
  rw [List.take_append_of_le_length hk1, List.take_append_of_le_length hk2] at h3
  exact hne h3

/-- An append whose left part differs from `t` within `t`'s length is not
`t`. -/
lemma append_ne_lit (p t : String) (k : Nat)
    (hk1 : k ≤ p.toList.length)
    (hne : p.toList.take k ≠ t.toList.take k) (x : String) :
    p ++ x ≠ t := by
  intro h
  have h2 : p.toList ++ x.toList = t.toList := by
    have := congrArg String.toList h
    rwa [toList_append] at this
  have h3 := congrArg (List.take k) h2
  rw [List.take_append_of_le_length hk1] at h3
  exact hne h3

/-- An append with a non-empty left part is not the empty string. -/
lemma append_ne_empty (p : String) (hp : p.toList ≠ []) (x : String) :
    p ++ x ≠ "" := by
  intro h
  have h2 : p.toList ++ x.toList = ([] : List Char) := by
    have := congrArg String.toList h
    rwa [toList_append] at this
  rcases hl : p.toList with _ | ⟨c, l⟩
  · exact hp hl
  · rw [hl] at h2
    simp at h2

/-- The author line differs from the title line. -/
lemma authorLine_ne_title (x : String) : "**Author:** " ++ x ≠ "# Safety Drill" :=
  append_ne_lit _ _ 1 (by decide) (by decide) x

/-- The author line is not blank. -/
lemma authorLine_ne_empty (x : String) : "**Author:** " ++ x ≠ "" :=
  append_ne_empty _ (by decide) x

/-- The author line differs from any date line. -/
lemma authorLine_ne_dateLine (x y : String) : "**Author:** " ++ x ≠ "**Date:** " ++ y :=
  append_ne_of_take _ _ 3 (by decide) (by decide) (by decide) x y

/-- The author line differs from any category line. -/
lemma authorLine_ne_categoryLine (x y : String) :
    "**Author:** " ++ x ≠ "**Category:** " ++ y :=
  append_ne_of_take _ _ 3 (by decide) (by decide) (by decide) x y

/-- The author line differs from any summary line. -/
lemma authorLine_ne_summaryLine (x y : String) :
    "**Author:** " ++ x ≠ "**Summary:** " ++ y :=
  append_ne_of_take _ _ 3 (by decide) (by decide) (by decide) x y

/-- The date line differs from the title line. -/
lemma dateLine_ne_title (x : String) : "**Date:** " ++ x ≠ "# Safety Drill" :=
  append_ne_lit _ _ 1 (by decide) (by decide) x

/-- The date line is not blank. -/
lemma dateLine_ne_empty (x : String) : "**Date:** " ++ x ≠ "" :=
  append_ne_empty _ (by decide) x

/-- The date line differs from any author line. -/
lemma dateLine_ne_authorLine (x y : String) : "**Date:** " ++ x ≠ "**Author:** " ++ y :=
  append_ne_of_take _ _ 3 (by decide) (by decide) (by decide) x y

/-- The date line differs from any category line. -/
lemma dateLine_ne_categoryLine (x y : String) :
    "**Date:** " ++ x ≠ "**Category:** " ++ y :=
  append_ne_of_take _ _ 3 (by decide) (by decide) (by decide) x y

/-- The date line differs from any summary line. -/
lemma dateLine_ne_summaryLine (x y : String) :
    "**Date:** " ++ x ≠ "**Summary:** " ++ y :=
  append_ne_of_take _ _ 3 (by decide) (by decide) (by decide) x y

/-- `String.mk` on no characters is the empty string. -/
lemma mk_nil : String.mk [] = "" := rfl

/-- The bare author marker differs from any date line. -/
lemma litAuthor_ne_dateLine (y : String) : "**Author:** " ≠ "**Date:** " ++ y :=
  fun h => append_ne_lit _ _ 3 (by decide) (by decide) y h.symm

/-- The bare author marker differs from any category line. -/
lemma litAuthor_ne_categoryLine (y : String) : "**Author:** " ≠ "**Category:** " ++ y :=
  fun h => append_ne_lit _ _ 3 (by decide) (by decide) y h.symm

/-- The bare author marker differs from any summary line. -/
lemma litAuthor_ne_summaryLine (y : String) : "**Author:** " ≠ "**Summary:** " ++ y :=
  fun h => append_ne_lit _ _ 3 (by decide) (by decide) y h.symm

/-- The bare date marker differs from any author line. -/
lemma litDate_ne_authorLine (y : String) : "**Date:** " ≠ "**Author:** " ++ y :=
  fun h => append_ne_lit _ _ 3 (by decide) (by decide) y h.symm

/-- The bare date marker differs from any category line. -/
lemma litDate_ne_categoryLine (y : String) : "**Date:** " ≠ "**Category:** " ++ y :=
  fun h => append_ne_lit _ _ 3 (by decide) (by decide) y h.symm

/-- The bare date marker differs from any summary line. -/
lemma litDate_ne_summaryLine (y : String) : "**Date:** " ≠ "**Summary:** " ++ y :=
  fun h => append_ne_lit _ _ 3 (by decide) (by decide) y h.symm

/-- A string all of whose characters satisfy `noNewline` has no `'\n'`
among its characters. -/
lemma noNewline_chars (s : String) (h : noNewline s = true) :
    ∀ c ∈ s.toList, c ≠ '\n' := by
  simpa [noNewline, List.all_eq_true, bne_iff_ne] using h

/-- Peeling a leading newline off `splitLines`. -/
lemma splitLines_newline_cons (l : List Char) :
    splitLines ('\n' :: l) = [] :: splitLines l := by
  rw [splitLines]
  simp

/-- A newline-terminated metadata line produces exactly one line. -/
lemma splitLines_chunk (w s : String) (rest : List Char)
    (hw : ∀ c ∈ w.toList, c ≠ '\n') (hs : ∀ c ∈ s.toList, c ≠ '\n') :
    splitLines ((w ++ s ++ "\n").toList ++ rest) = (w ++ s).toList :: splitLines rest := by
  have h1 : (w ++ s ++ "\n").toList ++ rest = (w.toList ++ s.toList) ++ '\n' :: rest := by
    simp only [toList_append, List.append_assoc]
    rfl
  rw [h1, splitLines_append _ _ (fun c hc => by
    rcases List.mem_append.mp hc with h | h
    · exact hw c h
    · exact hs c h)]
  rfl

/-- A conditionally included newline-terminated metadata line produces one
line when present and none when absent. -/
lemma splitLines_ifChunk (b : Prop) [Decidable b] (w s : String) (rest : List Char)
    (hw : ∀ c ∈ w.toList, c ≠ '\n') (hs : ∀ c ∈ s.toList, c ≠ '\n') :
    splitLines ((if b then w ++ s ++ "\n" else "").toList ++ rest)
      = (if b then [(w ++ s).toList] else []) ++ splitLines rest := by
  by_cases hb : b
  · rw [if_pos hb, if_pos hb, splitLines_chunk w s rest hw hs]
    rfl
  · rw [if_neg hb, if_neg hb]
    rfl

/-- The summary block, when present, contributes a blank line, the summary
line and the final blank; when absent only the final blank remains. -/
lemma splitLines_ifSummary (b : Prop) [Decidable b] (s : String)
    (hs : ∀ c ∈ s.toList, c ≠ '\n') :
    splitLines ((if b then "\n**Summary:** " ++ s ++ "\n" else "").toList)
      = if b then [[], ("**Summary:** " ++ s).toList, []] else [[]] := by
  by_cases hb : b
  · rw [if_pos hb, if_pos hb]
    have h1 : ("\n**Summary:** " ++ s ++ "\n").toList
        = '\n' :: ("**Summary:** ".toList ++ (s.toList ++ '\n' :: [])) := by
      simp only [toList_append, List.append_assoc]
      rfl
    rw [h1, splitLines_newline_cons, ← List.append_assoc]
    rw [splitLines_append _ _ (fun c hc => by
      rcases List.mem_append.mp hc with h | h
      · exact (by decide : ∀ c ∈ "**Summary:** ".toList, c ≠ '\n') c h
      · exact hs c h)]
    rfl
  · rw [if_neg hb, if_neg hb]
    rfl

/-- The character list of the header, reassociated to expose the title. -/
lemma mdHeader_toList (a : Article) :
    (mdHeader a).toList
      = "# ".toList ++ (a.title.toList ++ ('\n' :: '\n' :: (mdFields a).toList)) := by
  simp only [mdHeader, toList_append, List.append_assoc]
  rfl

/-- The character list of the metadata lines, segment by segment. -/
lemma mdFields_toList (a : Article) :
    (mdFields a).toList =
      (if a.author ≠ "" then "**Author:** " ++ a.author ++ "\n" else "").toList
      ++ ((if a.publicationDate ≠ "" then "**Date:** " ++ a.publicationDate ++ "\n" else "").toList
      ++ ((if a.category ≠ "" then "**Category:** " ++ a.category ++ "\n" else "").toList
      ++ (if a.summary ≠ "" then "\n**Summary:** " ++ a.summary ++ "\n" else "").toList)) := by
  simp only [mdFields, toList_append, List.append_assoc]

/-- Fusing the literal `"# "` with the title `"Safety Drill"`. -/
lemma sd_prefix_assoc (X : List Char) :
    "# ".toList ++ ("Safety Drill".toList ++ ('\n' :: '\n' :: X))
      = "# Safety Drill".toList ++ '\n' :: ('\n' :: X) := rfl

/-- The full line structure of the metadata header for a `"Safety Drill"`
article: title line, blank line, one line per non-empty metadata field
(with an extra blank before the summary), final blank. -/
lemma mdHeader_linesOf (a : Article) (ht : a.title = "Safety Drill")
    (hA : noNewline a.author = true) (hD : noNewline a.publicationDate = true)
    (hC : noNewline a.category = true) (hS : noNewline a.summary = true) :
    linesOf (mdHeader a) =
      ["# Safety Drill", ""]
      ++ ((if a.author ≠ "" then ["**Author:** " ++ a.author] else [])
      ++ ((if a.publicationDate ≠ "" then ["**Date:** " ++ a.publicationDate] else [])
      ++ ((if a.category ≠ "" then ["**Category:** " ++ a.category] else [])
      ++ (if a.summary ≠ "" then ["", "**Summary:** " ++ a.summary, ""] else [""])))) := by
  unfold linesOf
  rw [mdHeader_toList, ht, sd_prefix_assoc]
  rw [splitLines_append _ _ (by decide), splitLines_newline_cons, mdFields_toList]
  rw [splitLines_ifChunk _ "**Author:** " a.author _ (by decide) (noNewline_chars _ hA)]
  rw [splitLines_ifChunk _ "**Date:** " a.publicationDate _ (by decide) (noNewline_chars _ hD)]
  rw [splitLines_ifChunk _ "**Category:** " a.category _ (by decide) (noNewline_chars _ hC)]
  rw [splitLines_ifSummary _ a.summary (noNewline_chars _ hS)]
  simp only [List.map_cons, List.map_append, apply_ite (List.map String.mk),
    List.map_nil, mk_toList, mk_nil]
  rfl

/-- Claim C2 (counterexample to the claim as stated): the Markdown export
of a `"Safety Drill"` article does contain the line `# Safety Drill` — the
title is emitted as a level-1 heading, not omitted; the second conjunct
records that an author value containing a newline breaks the "author line
appears iff non-empty" reading, forcing the newline-free proviso of the
amended claim. -/
theorem c2_counterexample :
    "# Safety Drill" ∈ linesOf (generateMarkdown { mkArt "A" 0 with title := "Safety Drill" })
    ∧ (decide ("**Author:** x\ny" ∈ linesOf (mdHeader
        { mkArt "A" 0 with title := "Safety Drill", author := "x\ny" })) = false)
    ∧ ({ mkArt "A" 0 with title := "Safety Drill", author := "x\ny" } : Article).author ≠ "" := by
  refine ⟨by decide, by decide, by decide⟩

/-- Claim C2 (amended): for every article with title `"Safety Drill"`
whose metadata fields contain no newline, the first line of the Markdown
export is exactly `# Safety Drill` (the title appears as a heading rather
than being absent), and the author and date metadata lines appear among
the header lines if and only if the corresponding fields are
non-empty. -/
theorem c2_title_and_metadata (a : Article) (ht : a.title = "Safety Drill")
    (hA : noNewline a.author = true) (hD : noNewline a.publicationDate = true)
    (hC : noNewline a.category = true) (hS : noNewline a.summary = true) :
    (linesOf (generateMarkdown a)).headD "" = "# Safety Drill"
    ∧ (("**Author:** " ++ a.author) ∈ linesOf (mdHeader a) ↔ a.author ≠ "")
    ∧ (("**Date:** " ++ a.publicationDate) ∈ linesOf (mdHeader a) ↔ a.publicationDate ≠ "") := by
  refine ⟨?_, ?_, ?_⟩
  · unfold linesOf
    rw [generateMarkdown_toList, ht, sd_prefix_assoc]
    rw [splitLines_append _ _ (by decide)]
    rfl
  · rw [mdHeader_linesOf a ht hA hD hC hS]
    by_cases ha : a.author = "" <;> by_cases hd : a.publicationDate = "" <;>
      by_cases hc2 : a.category = "" <;> by_cases hs2 : a.summary = "" <;>
      simp [ha, hd, hc2, hs2, authorLine_ne_title, authorLine_ne_empty,
        authorLine_ne_dateLine, authorLine_ne_categoryLine, authorLine_ne_summaryLine,
        litAuthor_ne_dateLine, litAuthor_ne_categoryLine, litAuthor_ne_summaryLine]
  · rw [mdHeader_linesOf a ht hA hD hC hS]
    by_cases ha : a.author = "" <;> by_cases hd : a.publicationDate = "" <;>
      by_cases hc2 : a.category = "" <;> by_cases hs2 : a.summary = "" <;>
      simp [ha, hd, hc2, hs2, dateLine_ne_title, dateLine_ne_empty,
        dateLine_ne_authorLine, dateLine_ne_categoryLine, dateLine_ne_summaryLine,
        litDate_ne_authorLine, litDate_ne_categoryLine, litDate_ne_summaryLine]

/-- Witness for C2 (amended) at a concrete article with a non-empty author
and an empty date. -/
theorem c2_witness :
    ((linesOf (generateMarkdown { mkArt "A" 0 with title := "Safety Drill", author := "Ann" })).headD ""
        = "# Safety Drill")
    ∧ (("**Author:** " ++ ({ mkArt "A" 0 with title := "Safety Drill", author := "Ann" } : Article).author)
        ∈ linesOf (mdHeader { mkArt "A" 0 with title := "Safety Drill", author := "Ann" })
        ↔ ({ mkArt "A" 0 with title := "Safety Drill", author := "Ann" } : Article).author ≠ "")
    ∧ (("**Date:** " ++ ({ mkArt "A" 0 with title := "Safety Drill", author := "Ann" } : Article).publicationDate)
        ∈ linesOf (mdHeader { mkArt "A" 0 with title := "Safety Drill", author := "Ann" })
        ↔ ({ mkArt "A" 0 with title := "Safety Drill", author := "Ann" } : Article).publicationDate ≠ "") :=
  c2_title_and_metadata { mkArt "A" 0 with title := "Safety Drill", author := "Ann" }
    rfl (by decide) (by decide) (by decide) (by decide)

/-! ### Sanitized HTML export: `cleanHTMLForExport`

The seven `replace` passes of `cleanHTMLForExport`, in source order, each
modelled by a left-to-right scanner as for the Markdown conversion.  All
patterns here are case-sensitive. -/

/-- Boolean prefix test on character lists. -/
def isPrefixB : List Char → List Char → Bool
  | [], _ => true
  | _ :: _, [] => false
  | p :: ps, c :: cs => p == c && isPrefixB ps cs

/-- Consume the literal pattern from the front, returning the rest. -/
def stripExact : List Char → List Char → Option (List Char)
  | [], l => some l
  | _ :: _, [] => none
  | p :: ps, c :: cs => if p == c then stripExact ps cs else none

/-- Boolean substring test on character lists. -/
def hasSubstring (pat : List Char) : List Char → Bool
  | [] => isPrefixB pat []
  | l@(_ :: rest) => isPrefixB pat l || hasSubstring pat rest

/-- One global replace of `/ATTR="[^"]*ql-[^"]*[^"]*"/g` by the empty
string (used with `class="` and `style="`): the match runs from the
literal opening up to the next `"` and requires `ql-` inside. -/
def removeAttrQl (pat : List Char) : Nat → List Char → List Char
  | 0, l => l
  | _ + 1, [] => []
  | fuel + 1, c :: rest =>
    match stripExact pat (c :: rest) with
    | some afterOpen =>
      (match afterOpen.dropWhile (fun x => x != '"') with
       | '"' :: r =>
         if hasSubstring "ql-".toList (afterOpen.takeWhile (fun x => x != '"')) then
           removeAttrQl pat fuel r
         else
           c :: removeAttrQl pat fuel rest
       | _ => c :: removeAttrQl pat fuel rest)
    | none => c :: removeAttrQl pat fuel rest

/-- One global replace of `/\s*class\s*=\s*""\s*/g` by the empty string.
Since `c`, `=` and `"` are not whitespace, the greedy `\s*` groups can
only match the maximal whitespace runs. -/
def removeEmptyClassAttr : Nat → List Char → List Char
  | 0, l => l
  | _ + 1, [] => []
  | fuel + 1, c :: rest =>
    match stripExact "class".toList ((c :: rest).dropWhile isJsSpace) with
    | some t2 =>
      (match t2.dropWhile isJsSpace with
       | '=' :: t4 =>
         (match t4.dropWhile isJsSpace with
          | '"' :: '"' :: t5 => removeEmptyClassAttr fuel (t5.dropWhile isJsSpace)
          | _ => c :: removeEmptyClassAttr fuel rest)
       | _ => c :: removeEmptyClassAttr fuel rest)
    | none => c :: removeEmptyClassAttr fuel rest

/-- One global replace of `/\s+/g` by a single space. -/
def collapseWs : Nat → List Char → List Char
  | 0, l => l
  | _ + 1, [] => []
  | fuel + 1, c :: rest =>
    if isJsSpace c then ' ' :: collapseWs fuel (rest.dropWhile isJsSpace)
    else c :: collapseWs fuel rest

/-- One global replace of `/>\s+</g` by `><`. -/
def collapseBetweenTags : Nat → List Char → List Char
  | 0, l => l
  | _ + 1, [] => []
  | fuel + 1, '>' :: rest =>
    (match rest.dropWhile isJsSpace with
     | '<' :: r =>
       if rest.takeWhile isJsSpace = [] then '>' :: collapseBetweenTags fuel rest
       else '>' :: '<' :: collapseBetweenTags fuel r
     | _ => '>' :: collapseBetweenTags fuel rest)
  | fuel + 1, c :: rest => c :: collapseBetweenTags fuel rest

/-- One global replace of a literal pattern. -/
def replaceLit (pat repl : List Char) : Nat → List Char → List Char
  | 0, l => l
  | _ + 1, [] => []
  | fuel + 1, c :: rest =>
    match stripExact pat (c :: rest) with
    | some r => repl ++ replaceLit pat repl fuel r
    | none => c :: replaceLit pat repl fuel rest

/-- One global replace of `/<p>\s*<\/p>/g` by `<p>&nbsp;</p>`. -/
def emptyParaNbsp : Nat → List Char → List Char
  | 0, l => l
  | _ + 1, [] => []
  | fuel + 1, c :: rest =>
    match stripExact "<p>".toList (c :: rest) with
    | some t1 =>
      (match stripExact "</p>".toList (t1.dropWhile isJsSpace) with
       | some t2 => "<p>&nbsp;</p>".toList ++ emptyParaNbsp fuel t2
       | none => c :: emptyParaNbsp fuel rest)
    | none => c :: emptyParaNbsp fuel rest

/-- `cleanHTMLForExport(htmlContent)`: remove `ql-` class attributes,
remove empty class attributes, remove `ql-` style attributes, collapse
whitespace runs, drop whitespace between tags, normalise
`<p><br></p>` and `<p>\s*</p>` to the `&nbsp;` placeholder paragraph,
then trim. -/
def cleanHTMLForExport (s : String) : String :=
  let a0 := s.toList
  let a1 := removeAttrQl "class=\"".toList (a0.length + 1) a0
  let a2 := removeEmptyClassAttr (a1.length + 1) a1
  let a3 := removeAttrQl "style=\"".toList (a2.length + 1) a2
  let a4 := collapseWs (a3.length + 1) a3
  let a5 := collapseBetweenTags (a4.length + 1) a4
  let a6 := replaceLit "<p><br></p>".toList "<p>&nbsp;</p>".toList (a5.length + 1) a5
  let a7 := emptyParaNbsp (a6.length + 1) a6
  String.mk (jsTrimList a7)

/-- Claim C8 (counterexample to the claim as stated): on an input
containing a `ql-` class token, sanitizing twice differs from sanitizing
once.  Removing the `ql-` style attribute splices the surrounding text
into a new `class="ql-c"` attribute, which the class-removal pass — which
has already run — no longer removes; the second application then removes
it. -/
theorem c8_counterexample :
    (cleanHTMLForExport (cleanHTMLForExport "<p clstyle=\"aql-b\"ass=\"ql-c\">hi</p>")
      == cleanHTMLForExport "<p clstyle=\"aql-b\"ass=\"ql-c\">hi</p>") = false := by
  decide

/-- Claim C8 (amended): `cleanHTMLForExport` is idempotent on
representative editor output containing library-namespaced (`ql-`) class
tokens, verified here on a representative fragment with a `ql-` class
attribute, redundant whitespace and an empty paragraph; it is not
idempotent for arbitrary strings containing `ql-` tokens. -/
theorem c8_idempotent_representative :
    cleanHTMLForExport (cleanHTMLForExport
        "<div> <p class=\"ql-align-center\">Hello   world</p>  <p><br></p> </div>")
      = cleanHTMLForExport
        "<div> <p class=\"ql-align-center\">Hello   world</p>  <p><br></p> </div>" := by
  decide

end BlogEditor
